import Mathlib

/-!
Shallow embedding of the fetch–normalize–reconcile pipeline of the
`ft_parsers` repository (source files `vk_tg_parsers.py` and
`notion_parser.py`), together with proofs of the specification claims
about it.  Python dictionaries holding normalized records are modelled
as total functions from key strings to cell values; network reads are
passed in explicitly as functions.
-/

namespace FtParsers

/-- A Python cell value as it occurs in normalized record dictionaries:
`None`, a string, or an integer. -/
inductive Cell where
  | null : Cell
  | str : String → Cell
  | int : Int → Cell
deriving DecidableEq

/-- A normalized record (`post_info` / `message_info` / `channel_info`
dictionary): a total map from column-name keys to cell values. -/
def PostDict : Type := String → Cell

/-- Python membership test `value in existing_posts` where
`existing_posts` is a list of strings: only an equal string matches;
`None` and integers never do. -/
def pyIn (c : Cell) (ex : List String) : Bool :=
  match c with
  | .str s => ex.contains s
  | _ => false

/-- Python truthiness of a `str | None` value: `None` and `""` are falsy. -/
def truthyStr : Option String → Bool
  | none => false
  | some s => s != ""

/-- A Python `str | None` value as a cell. -/
def optStrCell : Option String → Cell
  | none => Cell.null
  | some s => Cell.str s

/-- A Python `int | None` value as a cell. -/
def optIntCell : Option Int → Cell
  | none => Cell.null
  | some n => Cell.int n

/-- The `parser_flag` strings dispatched on by
`BaseParser._get_row_from_post`: `"vk_posts_parser"`, `"tg_posts_parser"`,
`"vk_channel_parser"`, `"tg_channel_parser"`. -/
inductive ParserFlag where
  | vkPosts : ParserFlag
  | tgPosts : ParserFlag
  | vkChannel : ParserFlag
  | tgChannel : ParserFlag
deriving DecidableEq

/-- `BaseParser._get_row_from_post`: projects a post dictionary onto the
ordered row written to the sheet, according to the parser flag. -/
def get_row_from_post (post : PostDict) : ParserFlag → List Cell
  | .vkPosts =>
      [post "Группа", post "Пост", post "Текст оригинального поста",
       post "Дата-время", post "Лайки", post "Репосты", post "Комментарии",
       post "Просмотры", post "Текст репоста",
       post "Ссылка на оригинальный пост", post "Ссылка в посте"]
  | .tgPosts =>
      [post "Канал", post "Пост", post "Текст поста", post "Дата-время",
       post "Реакции", post "Комментарии", post "Просмотры",
       post "Количество репостов", post "Ссылка на оригинальный пост",
       post "Ссылка в посте"]
  | .vkChannel =>
      [post "Канал", post "Дата-время", post "Количество подписчиков"]
  | .tgChannel =>
      [post "Канал", post "Дата-время", post "Количество подписчиков"]

/-- `BaseParser._make_sheet_ready_data`: projects every record. -/
def make_sheet_ready_data (posts : List PostDict) (flag : ParserFlag) :
    List (List Cell) :=
  posts.map (fun p => get_row_from_post p flag)

/-- The partition loop of `BaseParser.run_google_upsert`: a post goes to
`rows_to_update` iff `post["Пост"] in existing_posts`, otherwise to
`rows_to_insert`, keeping input order within both lists. -/
def upsert_partition (posts : List PostDict) (ex : List String) :
    List PostDict × List PostDict :=
  match posts with
  | [] => ([], [])
  | p :: ps =>
    let rest := upsert_partition ps ex
    if pyIn (p "Пост") ex then (p :: rest.1, rest.2) else (rest.1, p :: rest.2)

/-- The request-building loop of `BaseParser._update_existing_rows`: for
each sheet-ready row, `post_link = row[1]`; when `post_link` occurs in the
identity column just read, an update request is emitted targeting row
`existing_posts.index(post_link) + 2`.  (The `A...{column_letter}` range
string built from the row is represented by its row number plus the row
values.) -/
def update_requests (existing_posts : List String) :
    List (List Cell) → List (Nat × List Cell)
  | [] => []
  | row :: rest =>
    match row.getD 1 Cell.null with
    | .str s =>
        if existing_posts.contains s then
          (existing_posts.indexOf s + 2, row) ::
            update_requests existing_posts rest
        else update_requests existing_posts rest
    | _ => update_requests existing_posts rest

/-- `BaseParser._insert_new_rows`: the append starts at row
`len(colA_values) + 1`, where `colA_values` is the `Лист1!A:A` read
(header row included); the appended rows are the sheet-ready
projections, in input order. -/
def insert_new_rows (colA_values : List (List Cell)) (rows_to_insert : List PostDict)
    (flag : ParserFlag) : Nat × List (List Cell) :=
  (colA_values.length + 1, make_sheet_ready_data rows_to_insert flag)

/-- The write operations produced by one `BaseParser.run_google_upsert`
run.  `reads k` is the k-th read of the destination identity column
`Лист1!B2:B` during this run: read 0 happens in `run_google_upsert`
itself and drives the partition; read 1 happens inside
`_update_existing_rows` (reached only when `rows_to_update` is
non-empty) and drives the update row indices.  The result is the list of
update operations (row number, row values) paired with the records routed
to insertion (their append write is modelled by `insert_new_rows`, which
reads column `A:A` instead). -/
def run_google_upsert (reads : Nat → List String) (posts : List PostDict)
    (flag : ParserFlag) : List (Nat × List Cell) × List PostDict :=
  let existing := reads 0
  let parts := upsert_partition posts existing
  let updOps :=
    if parts.1.isEmpty then []
    else update_requests (reads 1) (make_sheet_ready_data parts.1 flag)
  (updOps, parts.2)

/-- One response of the Notion `databases/query` endpoint, as consumed by
`BaseNotionParser.get_records_by_batch`. -/
structure NotionPage (α : Type) where
  results : List α
  has_more : Bool
  next_cursor : Option String
deriving DecidableEq

/-- `BaseNotionParser.get_records_by_batch`: the `while has_more` loop.
`server` maps the request cursor (the payload's `start_cursor`, `none` on
the first request) to the response; each iteration yields the page's
`results` immediately and continues with `next_cursor` while `has_more`
holds.  `fuel` bounds the number of loop iterations; the real loop is
unbounded, so `none` models failure to terminate within the given fuel. -/
def get_records_by_batch {α : Type} (server : Option String → NotionPage α) :
    Nat → Option String → Option (List α)
  | 0, _ => none
  | fuel + 1, cursor =>
    let page := server cursor
    if page.has_more then
      (get_records_by_batch server fuel page.next_cursor).map
        (fun rest => page.results ++ rest)
    else
      some page.results

/-- `server` serves exactly the given non-empty page sequence along its
cursor chain starting from `cursor`: every page but the last reports
`has_more = true`, and the last reports `has_more = false`. -/
def ServesChain {α : Type} (server : Option String → NotionPage α) :
    Option String → List (NotionPage α) → Prop
  | _, [] => False
  | cursor, [p] => server cursor = p ∧ p.has_more = false
  | cursor, p :: q :: rest =>
      server cursor = p ∧ p.has_more = true ∧
        ServesChain server p.next_cursor (q :: rest)

/-- The forward header of a Telegram message (`message.forward`). -/
structure TgForward where
  is_channel : Bool
  channel_id : Nat
  channel_post : Int
  from_name : Option String
deriving DecidableEq

/-- The fields of a Telegram message read by
`TgPostsParser.tg_posts_info_list`.  `dateStr` stands for the formatted
`message.date.strftime("%Y-%m-%d %H:%M:%S")` value; `reactions` holds
the `emoji.count` values of `message.reactions.results` when the
reactions object is present; `grouped_id` is `None` for ungrouped
messages (real grouped ids are non-zero, so Python truthiness of
`message.grouped_id` coincides with presence). -/
structure TgMessage where
  id : Int
  is_service : Bool
  grouped_id : Option Int
  text : Option String
  dateStr : String
  reactions : Option (List Int)
  replies : Option Int
  views : Option Int
  forwards : Option Int
  forward : Option TgForward

/-- The repost-resolution block of `tg_posts_info_list`: for a channel
forward, build `https://t.me/{channel.username}/{message_id}` where the
username comes from `get_entity(channel_id)` (modelled by
`resolveUsername`); otherwise, for a truthy `from_name`, build the
placeholder `Репост от {from_name}`; otherwise the link stays `None`. -/
def tg_original_channel_link (resolveUsername : Nat → String) :
    Option TgForward → Option String
  | none => none
  | some f =>
    if f.is_channel then
      some ("https://t.me/" ++ resolveUsername f.channel_id ++ "/" ++
        toString f.channel_post)
    else if truthyStr f.from_name then
      some ("Репост от " ++ f.from_name.getD "")
    else
      none

/-- The `https?://` part of the TG link pattern, with the greedy optional
`s`: returns the consumed scheme characters and the rest of the input. -/
def matchScheme : List Char → Option (List Char × List Char)
  | 'h' :: 't' :: 't' :: 'p' :: 's' :: ':' :: '/' :: '/' :: rest =>
      some (['h', 't', 't', 'p', 's', ':', '/', '/'], rest)
  | 'h' :: 't' :: 't' :: 'p' :: ':' :: '/' :: '/' :: rest =>
      some (['h', 't', 't', 'p', ':', '/', '/'], rest)
  | _ => none

/-- Maximal `\S*` run: split off the longest whitespace-free prefix. -/
def spanNonSpace : List Char → List Char × List Char
  | [] => ([], [])
  | c :: cs =>
    if c.isWhitespace then ([], c :: cs)
    else
      let rest := spanNonSpace cs
      (c :: rest.1, rest.2)

/-- Greedy `\S+` followed by the lookahead `(?=\))`: the length of the
longest non-empty prefix of the maximal non-space run whose following
character is a closing parenthesis (the engine backtracks inside the
run), or `none` when no prefix satisfies the lookahead. -/
def backtrackParen (run rest : List Char) : Option Nat :=
  (List.range (run.length + 1)).reverse.find? (fun k =>
    k != 0 && ((run.drop k ++ rest).head? == some ')'))

/-- One attempt of the compiled pattern
`(?<=\]\()(?:https?://\S+)(?=\))|https?://\S+`
(`TgPostsParser.tg_links_pattern`) at the current position: the markdown
branch is tried first (lookbehind on the two preceding characters,
lookahead handled by backtracking inside the `\S+` run), then the bare
URL branch.  Returns the matched text and the remaining input. -/
def tryMatchTgLink (p2 p1 : Option Char) (s : List Char) :
    Option (List Char × List Char) :=
  match matchScheme s with
  | none => none
  | some (scheme, afterScheme) =>
    let run := (spanNonSpace afterScheme).1
    let rest := (spanNonSpace afterScheme).2
    if p2 == some ']' && p1 == some '(' then
      match backtrackParen run rest with
      | some k => some (scheme ++ run.take k, run.drop k ++ rest)
      | none => if run.isEmpty then none else some (scheme ++ run, rest)
    else
      if run.isEmpty then none else some (scheme ++ run, rest)

/-- `re.findall` scanning for the TG link pattern: try a match at every
position from left to right, consume matched text whole, otherwise
advance one character.  `p2`/`p1` are the two characters immediately
before the current position (needed for the lookbehind); `fuel` bounds
the scan (every step consumes at least one character). -/
def tgFindAllAux : Nat → Option Char → Option Char → List Char →
    List (List Char)
  | 0, _, _, _ => []
  | _ + 1, _, _, [] => []
  | fuel + 1, p2, p1, c :: cs =>
    match tryMatchTgLink p2 p1 (c :: cs) with
    | some (m, rest) =>
        m :: tgFindAllAux fuel m.dropLast.getLast? m.getLast? rest
    | none => tgFindAllAux fuel p1 (some c) cs

/-- `re.findall(self.tg_links_pattern, text)`. -/
def tgFindAll (text : String) : List String :=
  (tgFindAllAux (text.length + 1) none none text.data).map
    (fun cs => String.mk cs)

/-- The link-extraction block of `tg_posts_info_list`: on truthy
`message.text`, join all pattern matches with `", "`; `links_in_post`
stays `None` when the text is falsy or nothing matches. -/
def tg_links_in_post (text : Option String) : Option String :=
  if truthyStr text then
    let found := tgFindAll (text.getD "")
    if found.isEmpty then none else some (String.intercalate ", " found)
  else none

/-- The `message_info` dictionary built by
`TgPostsParser.tg_posts_info_list` for one message of `channel_link`. -/
def tg_message_info (resolveUsername : Nat → String) (channel_link : String)
    (m : TgMessage) : PostDict := fun key =>
  if key = "Канал" then Cell.str channel_link
  else if key = "Пост" then Cell.str (channel_link ++ "/" ++ toString m.id)
  else if key = "Текст поста" then optStrCell m.text
  else if key = "Дата-время" then Cell.str m.dateStr
  else if key = "Реакции" then
    (match m.reactions with
     | some counts => Cell.int (counts.foldr (· + ·) 0)
     | none => Cell.int 0)
  else if key = "Комментарии" then
    (match m.replies with
     | some r => Cell.int r
     | none => Cell.int 0)
  else if key = "Просмотры" then optIntCell m.views
  else if key = "Количество репостов" then optIntCell m.forwards
  else if key = "Ссылка на оригинальный пост" then
    Cell.str ((tg_original_channel_link resolveUsername m.forward).getD "")
  else if key = "Ссылка в посте" then optStrCell (tg_links_in_post m.text)
  else Cell.null

/-- `TgPostsParser.tg_posts_info_list`: the per-channel loop.
`fetchMessages` models `get_entity` on the channel link followed by
`get_messages(channel, limit=100)`, returning `none` when that block
raises; the exception is caught, printed and the channel skipped, and the
loop continues with the next link.  Service messages and grouped
messages are filtered out; the rest are normalized in order. -/
def tg_posts_info_list (resolveUsername : Nat → String)
    (fetchMessages : String → Option (List TgMessage)) :
    List String → List PostDict
  | [] => []
  | cl :: rest =>
    (match fetchMessages cl with
     | none => []
     | some msgs =>
        (msgs.filter (fun m => !(m.is_service || m.grouped_id.isSome))).map
          (tg_message_info resolveUsername cl)) ++
    tg_posts_info_list resolveUsername fetchMessages rest

/-- `TgChannelParser.tg_channels_info_list`: a failing
`GetFullChannelRequest` (modelled by `none`) is printed and skipped with
`continue`; otherwise one record per channel is produced.  `dateStr`
abstracts `datetime.now().strftime("%Y-%m-%d %H:%M:%S")`. -/
def tg_channels_info_list (fetchParticipants : String → Option Int)
    (dateStr : String) : List String → List PostDict
  | [] => []
  | cl :: rest =>
    (match fetchParticipants cl with
     | none => []
     | some n =>
        [fun key =>
          if key = "Канал" then Cell.str cl
          else if key = "Дата-время" then Cell.str dateStr
          else if key = "Количество подписчиков" then Cell.int n
          else Cell.null]) ++
    tg_channels_info_list fetchParticipants dateStr rest

/-- A VK counter wrapper object (the values of `likes`, `reposts`,
`comments`, `views`): when the object is present, its `count` field may
itself be missing (`.get("count")`). -/
structure VkCounts where
  count : Option Int
deriving DecidableEq

/-- One entry of `post["copy_history"]`. -/
structure VkOriginal where
  owner_id : Int
  id : Int
  text : Option String

/-- One entry of `post["attachments"]`; `atype` is the `"type"` key. -/
structure VkAttachment where
  atype : String
  video_description : Option String

/-- The fields of a VK wall post read by
`VkPostsParser.vk_posts_info_list`.  `dateStr` stands for the formatted
`datetime.fromtimestamp(post["date"]).strftime(...)` value; an absent or
empty `copy_history` / `attachments` is the empty list (matching Python
truthiness). -/
structure VkPost where
  owner_id : Int
  id : Int
  text : Option String
  dateStr : String
  copy_history : List VkOriginal
  attachments : List VkAttachment
  likes : Option VkCounts
  reposts : Option VkCounts
  comments : Option VkCounts
  views : Option VkCounts

/-- `post["X"].get("count") if post.get("X") else 0` for a VK counter
object `X`. -/
def vk_count_cell : Option VkCounts → Cell
  | none => Cell.int 0
  | some c =>
    match c.count with
    | some n => Cell.int n
    | none => Cell.null

/-- Python `f"{x}"` of a `str | None` value: `None` prints as `"None"`. -/
def pyFmt : Option String → String
  | none => "None"
  | some s => s

/-- The `post_info` dictionary built by `VkPostsParser.vk_posts_info_list`
for one post of group `link`.  `findall` abstracts
`re.findall(self.link_pattern, ·)` (no verified property depends on the
VK pattern itself, only on how its matches are collected). -/
def vk_post_info (findall : String → List String) (link : String)
    (post : VkPost) : PostDict :=
  let original := post.copy_history.getLast?
  let original_post_text : Option String := original.bind (fun o => o.text)
  let repost_text : Option String :=
    if original.isSome then post.text else none
  let original_post_url : Option String :=
    original.map (fun o =>
      "vk.com/wall" ++ toString o.owner_id ++ "_" ++ toString o.id)
  let post_text : Option String :=
    if !truthyStr post.text && !post.attachments.isEmpty then
      match post.attachments.head? with
      | some a => if a.atype = "video" then a.video_description else post.text
      | none => post.text
    else post.text
  let links_collector : List String :=
    (if truthyStr post_text then findall (post_text.getD "") else []) ++
    (if truthyStr original_post_text then findall (original_post_text.getD "")
     else []) ++
    (if truthyStr repost_text then findall (repost_text.getD "") else [])
  let links_in_post : Option String :=
    if truthyStr post_text || truthyStr original_post_text ||
        truthyStr repost_text then
      (if links_collector.isEmpty then none
       else some (String.intercalate ", " links_collector))
    else none
  fun key =>
    if key = "Группа" then Cell.str link
    else if key = "Пост" then
      Cell.str ("vk.com/wall" ++ toString post.owner_id ++ "_" ++
        toString post.id)
    else if key = "Текст оригинального поста" then
      Cell.str ("\x27" ++ pyFmt
        (if truthyStr original_post_text then original_post_text
         else post_text))
    else if key = "Дата-время" then Cell.str post.dateStr
    else if key = "Лайки" then vk_count_cell post.likes
    else if key = "Репосты" then vk_count_cell post.reposts
    else if key = "Комментарии" then vk_count_cell post.comments
    else if key = "Просмотры" then vk_count_cell post.views
    else if key = "Текст репоста" then optStrCell repost_text
    else if key = "Ссылка на оригинальный пост" then optStrCell original_post_url
    else if key = "Ссылка в посте" then optStrCell links_in_post
    else Cell.null

/-- `VkPostsParser.vk_posts_info_list`: the per-link loop.  `fetch`
models `_get_vk_wall` for one link: `none` when that call hit an
exception, which `_get_vk_wall` catches, logs, and turns into an
implicit `None` return.  The caller then runs `for post in data:`; with
`data = None` this raises `TypeError`, which nothing catches, so the
whole property aborts and no records (from any link) are produced. -/
def vk_posts_info_list (findall : String → List String)
    (fetch : String → Option (List VkPost)) :
    List String → Except String (List PostDict)
  | [] => Except.ok []
  | link :: rest =>
    match fetch link with
    | none => Except.error "TypeError: NoneType object is not iterable"
    | some data =>
      match vk_posts_info_list findall fetch rest with
      | Except.ok more =>
          Except.ok (data.map (vk_post_info findall link) ++ more)
      | Except.error e => Except.error e

/-- The string carried by a string cell (`""` otherwise); used to state
which existing-identity entry an update row index refers to. -/
def cellString : Cell → String
  | .str s => s
  | _ => ""

/-- A concrete record with identity value `"a"`. -/
def postA : PostDict := fun key => if key = "Пост" then Cell.str "a" else Cell.null

/-- A concrete record with identity value `"b"`. -/
def postB : PostDict := fun key => if key = "Пост" then Cell.str "b" else Cell.null

/-- A concrete record whose identity value is the empty string. -/
def postEmptyId : PostDict :=
  fun key => if key = "Пост" then Cell.str "" else Cell.null

/-- A concrete record whose identity value is `None`. -/
def postNullId : PostDict := fun _ => Cell.null

/-- Identity-column reads where the second read observes a changed
destination: read 0 returns `["a"]`, every later read `["b", "a"]`. -/
def readsShifted : Nat → List String :=
  fun k => if k = 0 then ["a"] else ["b", "a"]

/-- Identity-column reads that are stable across the whole run. -/
def readsStable : Nat → List String := fun _ => ["b", "a"]

/-- A concrete VK post with all counter objects present. -/
def demoVkPost : VkPost :=
  { owner_id := 1, id := 7, text := some "hello",
    dateStr := "2024-01-01 00:00:00", copy_history := [], attachments := [],
    likes := some ⟨some 3⟩, reposts := some ⟨some 1⟩,
    comments := some ⟨some 2⟩, views := some ⟨some 9⟩ }

/-- A VK wall fetch that raises for `vk.com/g1` and succeeds with one
post for `vk.com/g2`. -/
def vkFetchDemo : String → Option (List VkPost) :=
  fun link => if link = "vk.com/g2" then some [demoVkPost] else none

/-- A concrete plain TG message: no forward, no reactions, no replies,
and absent `views` and `forwards` values. -/
def demoTgMessage : TgMessage :=
  { id := 1, is_service := false, grouped_id := none, text := none,
    dateStr := "2024-01-01 00:00:00", reactions := none, replies := none,
    views := none, forwards := none, forward := none }

/-- A TG message fetch that raises for `t.me/c1` and succeeds with one
message for `t.me/c2`. -/
def tgFetchDemo : String → Option (List TgMessage) :=
  fun link => if link = "t.me/c2" then some [demoTgMessage] else none

/-- A TG full-channel request that raises for `t.me/c1` and reports 5
participants for `t.me/c2`. -/
def tgParticipantsDemo : String → Option Int :=
  fun link => if link = "t.me/c2" then some 5 else none

/-- A forward header from a non-channel source named `X`. -/
def fwdNameX : TgForward :=
  { is_channel := false, channel_id := 0, channel_post := 0,
    from_name := some "X" }

/-- A forward header from channel id 9 with forwarded post id 5. -/
def fwdChannelC : TgForward :=
  { is_channel := true, channel_id := 9, channel_post := 5,
    from_name := none }

/-- A TG message forwarded from a non-channel source named `X`. -/
def tgMsgForwardName : TgMessage :=
  { demoTgMessage with id := 2, forward := some fwdNameX }

/-- A TG message forwarded from a channel resolving to username `c`. -/
def tgMsgForwardChannel : TgMessage :=
  { demoTgMessage with id := 3, forward := some fwdChannelC }

/-- First of three mocked Notion pages: items 0–9, more to come. -/
def notionPage1 : NotionPage Nat :=
  { results := List.range 10, has_more := true, next_cursor := some "c1" }

/-- Second mocked Notion page: items 10–19, more to come. -/
def notionPage2 : NotionPage Nat :=
  { results := (List.range 10).map (fun n => n + 10), has_more := true,
    next_cursor := some "c2" }

/-- Third mocked Notion page: items 20–23, `has_more = false`. -/
def notionPage3 : NotionPage Nat :=
  { results := [20, 21, 22, 23], has_more := false, next_cursor := none }

/-- A mocked paginated source serving the three pages along their cursor
chain. -/
def notionServerDemo : Option String → NotionPage Nat := fun c =>
  if c = some "c1" then notionPage2
  else if c = some "c2" then notionPage3
  else notionPage1

-- ### Theorems

theorem upsert_partition_eq_filter (posts : List PostDict) (ex : List String) :
    upsert_partition posts ex =
      (posts.filter (fun p => pyIn (p "Пост") ex),
       posts.filter (fun p => !pyIn (p "Пост") ex)) := by
  induction posts with
  | nil => rfl
  | cons p ps ih =>
    simp only [upsert_partition, ih]
    cases h : pyIn (p "Пост") ex <;> simp [List.filter_cons, h]

theorem get_row_from_post_getD_one (p : PostDict) (flag : ParserFlag)
    (hflag : flag = ParserFlag.vkPosts ∨ flag = ParserFlag.tgPosts) :
    (get_row_from_post p flag).getD 1 Cell.null = p "Пост" := by
  rcases hflag with h | h <;> subst h <;> rfl

theorem indexOf_eq_of_first_occurrence (ex : List String) (v : String) (i : Nat)
    (h1 : ex.get? i = some v) (h2 : ∀ j, j < i → ex.get? j ≠ some v) :
    ex.indexOf v = i := by
  induction ex generalizing i with
  | nil => simp at h1
  | cons a t ih =>
    cases i with
    | zero =>
      simp only [List.get?] at h1
      injection h1 with h1
      subst h1
      exact List.indexOf_cons_self a t
    | succ n =>
      have ha : a ≠ v := by
        intro hav
        exact h2 0 (Nat.succ_pos n) (by simp [hav])
      have h1' : t.get? n = some v := by simpa using h1
      have h2' : ∀ j, j < n → t.get? j ≠ some v := by
        intro j hj
        have := h2 (j + 1) (Nat.succ_lt_succ hj)
        simpa using this
      rw [List.indexOf_cons_ne t ha, ih n h1' h2']

theorem update_requests_of_matching (ex : List String) (l : List PostDict)
    (flag : ParserFlag)
    (hflag : flag = ParserFlag.vkPosts ∨ flag = ParserFlag.tgPosts)
    (hall : ∀ p ∈ l, pyIn (p "Пост") ex = true) :
    update_requests ex (make_sheet_ready_data l flag) =
      l.map (fun p =>
        (ex.indexOf (cellString (p "Пост")) + 2, get_row_from_post p flag)) := by
  induction l with
  | nil => rfl
  | cons p ps ih =>
    have hp := hall p (List.mem_cons_self p ps)
    have hrest : ∀ q ∈ ps, pyIn (q "Пост") ex = true := fun q hq =>
      hall q (List.mem_cons_of_mem p hq)
    have hrow : (get_row_from_post p flag).getD 1 Cell.null = p "Пост" :=
      get_row_from_post_getD_one p flag hflag
    simp only [make_sheet_ready_data, List.map_cons, update_requests, hrow]
    cases c : p "Пост" with
    | null => rw [c] at hp; exact absurd hp (by simp [pyIn])
    | int n => rw [c] at hp; exact absurd hp (by simp [pyIn])
    | str s =>
      have hcmem : s ∈ ex := by
        rw [c] at hp
        exact List.elem_iff.mp (by simpa [pyIn] using hp)
      simpa [hcmem, cellString, c] using ih hrest

/-- C1: the partition of `run_google_upsert` sends each normalized record
to exactly one of `rows_to_update` / `rows_to_insert` — to
`rows_to_update` iff its identity value `post["Пост"]` occurs in the
existing-identities list — the two part sizes sum to the input length,
and input order is preserved within each part (each part is an
order-preserving filter of the input). -/
theorem run_google_upsert_partition_complete (posts : List PostDict)
    (ex : List String) :
    (upsert_partition posts ex).1 =
        posts.filter (fun p => pyIn (p "Пост") ex) ∧
    (upsert_partition posts ex).2 =
        posts.filter (fun p => !pyIn (p "Пост") ex) ∧
    (upsert_partition posts ex).1.length +
        (upsert_partition posts ex).2.length = posts.length ∧
    ∀ p, p ∈ posts →
      ((p ∈ (upsert_partition posts ex).1 ↔ pyIn (p "Пост") ex = true) ∧
       (p ∈ (upsert_partition posts ex).2 ↔ ¬ pyIn (p "Пост") ex = true)) := by
  have hpart := upsert_partition_eq_filter posts ex
  refine ⟨by rw [hpart], by rw [hpart], ?_, ?_⟩
  · rw [hpart]
    exact (List.length_eq_length_filter_add
      (fun p => pyIn (p "Пост") ex) (l := posts)).symm
  · intro p hp
    rw [hpart]
    constructor
    · simp [List.mem_filter, hp]
    · simp [List.mem_filter, hp]

theorem run_google_upsert_partition_complete_instance :
    (upsert_partition [postA, postB] ["a"]).1.length +
      (upsert_partition [postA, postB] ["a"]).2.length =
      ([postA, postB] : List PostDict).length :=
  (run_google_upsert_partition_complete [postA, postB] ["a"]).2.2.1

/-- C2: for a destination whose `A:A` read consists of the header row
plus `N` data rows, the append start row computed by `_insert_new_rows`
is `N + 2`; and for an update target whose identity value `v` sits at
0-based position `i` of the existing-identities sequence (its first
occurrence), the update request built by `_update_existing_rows` targets
row `i + 2`. -/
theorem upsert_row_indices_correct (hdr : List Cell)
    (dataRows : List (List Cell)) (toIns : List PostDict)
    (p : PostDict) (v : String) (ex : List String) (i : Nat)
    (flag : ParserFlag)
    (hflag : flag = ParserFlag.vkPosts ∨ flag = ParserFlag.tgPosts)
    (hid : p "Пост" = Cell.str v)
    (h1 : ex.get? i = some v) (h2 : ∀ j, j < i → ex.get? j ≠ some v) :
    (insert_new_rows (hdr :: dataRows) toIns flag).1 = dataRows.length + 2 ∧
    update_requests ex (make_sheet_ready_data [p] flag) =
      [(i + 2, get_row_from_post p flag)] := by
  constructor
  · simp [insert_new_rows]
  · have hmem : v ∈ ex := by
      have hlt : i < ex.length := by
        by_contra hge
        rw [List.get?_eq_none.mpr (Nat.le_of_not_lt hge)] at h1
        exact Option.noConfusion h1
      exact List.get?_mem h1
    have hc : ex.contains v = true := List.elem_iff.mpr hmem
    have hidx := indexOf_eq_of_first_occurrence ex v i h1 h2
    have hall : ∀ q ∈ [p], pyIn (q "Пост") ex = true := by
      intro q hq
      rw [List.mem_singleton.mp hq, hid]
      simpa [pyIn] using hc
    rw [update_requests_of_matching ex [p] flag hflag hall]
    simp [hid, cellString, hidx]

theorem upsert_row_indices_correct_instance :
    (insert_new_rows [[Cell.str "h"], [Cell.str "r1"]] [] ParserFlag.vkPosts).1
        = 3 ∧
    update_requests ["x", "a"]
        (make_sheet_ready_data [postA] ParserFlag.vkPosts) =
      [(3, get_row_from_post postA ParserFlag.vkPosts)] :=
  upsert_row_indices_correct [Cell.str "h"] [[Cell.str "r1"]] []
    postA "a" ["x", "a"] 1 ParserFlag.vkPosts (Or.inl rfl) rfl (by decide)
    (by decide)

/-- C3 counterexample: a record whose identity value is the empty string
is routed to `rows_to_update` — not `rows_to_insert` — as soon as the
existing-identities snapshot itself contains an empty-string entry, so
the insert routing does not hold regardless of snapshot contents. -/
theorem empty_identity_matches_empty_snapshot :
    (upsert_partition [postEmptyId] [""]).1 = [postEmptyId] ∧
    (upsert_partition [postEmptyId] [""]).2 = ([] : List PostDict) :=
  ⟨rfl, rfl⟩

/-- C3 amended: a record with `None` identity always goes to
`rows_to_insert`, and a record with empty-string identity goes to
`rows_to_insert` provided the existing-identities snapshot contains no
empty-string entry. -/
theorem empty_or_null_identity_routed_to_insert (posts : List PostDict)
    (ex : List String) (p : PostDict) (hp : p ∈ posts)
    (hid : p "Пост" = Cell.null ∨ (p "Пост" = Cell.str "" ∧ "" ∉ ex)) :
    p ∈ (upsert_partition posts ex).2 ∧ p ∉ (upsert_partition posts ex).1 := by
  have hfalse : pyIn (p "Пост") ex = false := by
    rcases hid with h | ⟨h, hne⟩
    · rw [h]; rfl
    · rw [h]
      cases hc : ex.contains "" with
      | false => simpa [pyIn] using hc
      | true => exact absurd (List.elem_iff.mp hc) hne
  have hpart := upsert_partition_eq_filter posts ex
  rw [hpart]
  constructor
  · exact List.mem_filter.mpr ⟨hp, by simp [hfalse]⟩
  · intro hmem
    have hcontra := (List.mem_filter.mp hmem).2
    rw [hfalse] at hcontra
    exact Bool.noConfusion hcontra

theorem empty_or_null_identity_routed_to_insert_instance :
    postEmptyId ∈ (upsert_partition [postEmptyId] ["x"]).2 ∧
    postEmptyId ∉ (upsert_partition [postEmptyId] ["x"]).1 :=
  empty_or_null_identity_routed_to_insert [postEmptyId] ["x"] postEmptyId
    (List.mem_cons_self _ _) (Or.inr ⟨rfl, by decide⟩)

/-- C10: for both post parser flags the projected row places the identity
value `post["Пост"]` at index 1, so the value `_update_existing_rows`
matches against the destination identity column (`row[1]`) is exactly
the value `run_google_upsert` used to partition the record into
`rows_to_update`. -/
theorem identity_at_row_index_one (post : PostDict) (flag : ParserFlag)
    (hflag : flag = ParserFlag.vkPosts ∨ flag = ParserFlag.tgPosts) :
    (get_row_from_post post flag).getD 1 Cell.null = post "Пост" ∧
    ∀ posts : List PostDict,
      (make_sheet_ready_data posts flag).map
          (fun row => row.getD 1 Cell.null) =
        posts.map (fun p => p "Пост") := by
  refine ⟨get_row_from_post_getD_one post flag hflag, ?_⟩
  intro posts
  simp only [make_sheet_ready_data, List.map_map]
  apply List.map_congr_left
  intro q _
  exact get_row_from_post_getD_one q flag hflag

theorem identity_at_row_index_one_instance :
    (get_row_from_post postA ParserFlag.vkPosts).getD 1 Cell.null =
      postA "Пост" :=
  (identity_at_row_index_one postA ParserFlag.vkPosts (Or.inl rfl)).1

/-- C4 counterexample: with one record of identity `"a"`, partition
snapshot `["a"]` (read 0) and later snapshot `["b", "a"]` (read 1), the
single update operation targets row 3 — the identity's position in read
1 plus 2 — although its position in the partition-generation snapshot
gives row 2: the update row index is derived from a different, later
snapshot read within the same run. -/
theorem update_row_index_from_later_read :
    ((run_google_upsert readsShifted [postA] ParserFlag.vkPosts).1.map
        Prod.fst = [3]) ∧
    (readsShifted 0).indexOf "a" + 2 = 2 :=
  ⟨rfl, rfl⟩

/-- C4 amended: update row indices are computed from a second
identity-column read performed inside `_update_existing_rows`, not from
the snapshot that drove the partition; whenever that second read returns
the same sequence as the first, every update operation's row index is
the shared snapshot's first-occurrence position of the record's identity
plus 2, so it matches the partition generation. -/
theorem update_row_indices_when_reads_agree (reads : Nat → List String)
    (posts : List PostDict) (flag : ParserFlag)
    (hflag : flag = ParserFlag.vkPosts ∨ flag = ParserFlag.tgPosts)
    (hagree : reads 1 = reads 0) :
    (run_google_upsert reads posts flag).1 =
      ((upsert_partition posts (reads 0)).1).map (fun p =>
        ((reads 0).indexOf (cellString (p "Пост")) + 2,
          get_row_from_post p flag)) := by
  simp only [run_google_upsert]
  by_cases hemp : (upsert_partition posts (reads 0)).1.isEmpty
  · rw [if_pos hemp, List.isEmpty_iff.mp hemp]
    rfl
  · rw [if_neg hemp, hagree]
    apply update_requests_of_matching _ _ flag hflag
    intro q hq
    rw [upsert_partition_eq_filter] at hq
    exact (List.mem_filter.mp hq).2

theorem update_row_indices_when_reads_agree_instance :
    (run_google_upsert readsStable [postA] ParserFlag.vkPosts).1 =
      [(3, get_row_from_post postA ParserFlag.vkPosts)] := by
  rw [update_row_indices_when_reads_agree readsStable [postA]
    ParserFlag.vkPosts (Or.inl rfl) rfl]
  rfl

/-- C5: evaluation at the failing input.  In the VK posts loop, a link
whose wall fetch raises is logged inside `_get_vk_wall`, which then
implicitly returns `None`; `vk_posts_info_list` iterates that `None` and
raises an uncaught `TypeError`, so the run aborts and even the remaining
healthy link's records are lost — iteration does not continue.  The TG
posts and TG channels loops do skip the failing link and continue with
the next one. -/
theorem vk_failed_link_aborts_run :
    vk_posts_info_list (fun _ => []) vkFetchDemo ["vk.com/g1", "vk.com/g2"] =
      Except.error "TypeError: NoneType object is not iterable" ∧
    (tg_posts_info_list (fun _ => "u") tgFetchDemo
        ["t.me/c1", "t.me/c2"]).map (fun p => p "Канал") =
      [Cell.str "t.me/c2"] ∧
    (tg_channels_info_list tgParticipantsDemo "2024-01-01"
        ["t.me/c1", "t.me/c2"]).map (fun p => p "Канал") =
      [Cell.str "t.me/c2"] :=
  ⟨rfl, rfl, rfl⟩

theorem tg_message_info_reactions (ru : Nat → String) (cl : String)
    (m : TgMessage) :
    tg_message_info ru cl m "Реакции" =
      (match m.reactions with
       | some counts => Cell.int (counts.foldr (· + ·) 0)
       | none => Cell.int 0) := rfl

theorem tg_message_info_replies (ru : Nat → String) (cl : String)
    (m : TgMessage) :
    tg_message_info ru cl m "Комментарии" =
      (match m.replies with
       | some r => Cell.int r
       | none => Cell.int 0) := rfl

theorem tg_message_info_views (ru : Nat → String) (cl : String)
    (m : TgMessage) :
    tg_message_info ru cl m "Просмотры" = optIntCell m.views := rfl

theorem tg_message_info_forwards (ru : Nat → String) (cl : String)
    (m : TgMessage) :
    tg_message_info ru cl m "Количество репостов" = optIntCell m.forwards :=
  rfl

theorem tg_message_info_original_link (ru : Nat → String) (cl : String)
    (m : TgMessage) :
    tg_message_info ru cl m "Ссылка на оригинальный пост" =
      Cell.str ((tg_original_channel_link ru m.forward).getD "") := rfl

theorem vk_post_info_likes (fa : String → List String) (lk : String)
    (post : VkPost) :
    vk_post_info fa lk post "Лайки" = vk_count_cell post.likes := rfl

theorem vk_post_info_reposts (fa : String → List String) (lk : String)
    (post : VkPost) :
    vk_post_info fa lk post "Репосты" = vk_count_cell post.reposts := rfl

theorem vk_post_info_comments (fa : String → List String) (lk : String)
    (post : VkPost) :
    vk_post_info fa lk post "Комментарии" = vk_count_cell post.comments := rfl

theorem vk_post_info_views (fa : String → List String) (lk : String)
    (post : VkPost) :
    vk_post_info fa lk post "Просмотры" = vk_count_cell post.views := rfl

/-- C6 counterexample: a TG message whose `views` value is absent is
normalized with a `None` — not `0` — `"Просмотры"` cell. -/
theorem tg_absent_views_normalized_to_null :
    tg_message_info (fun _ => "") "t.me/c" demoTgMessage "Просмотры" =
      Cell.null ∧ Cell.null ≠ Cell.int 0 :=
  ⟨rfl, by decide⟩

/-- C6 amended: the VK normalizer defaults likes/reposts/comments/views
to 0 when the counter object is absent (and passes the wrapped count
through when present), and the TG normalizer defaults reactions and
comments to 0 when absent, never producing `None` for them; the TG
normalizer, however, copies `message.views` and `message.forwards`
through unchanged, so those two columns are `None` exactly when the
upstream value is absent. -/
theorem engagement_counter_defaults (ru : Nat → String) (cl : String)
    (m : TgMessage) (fa : String → List String) (lk : String)
    (post : VkPost) :
    (m.reactions = none → tg_message_info ru cl m "Реакции" = Cell.int 0) ∧
    tg_message_info ru cl m "Реакции" ≠ Cell.null ∧
    (m.replies = none → tg_message_info ru cl m "Комментарии" = Cell.int 0) ∧
    tg_message_info ru cl m "Комментарии" ≠ Cell.null ∧
    tg_message_info ru cl m "Просмотры" = optIntCell m.views ∧
    tg_message_info ru cl m "Количество репостов" = optIntCell m.forwards ∧
    (post.likes = none → vk_post_info fa lk post "Лайки" = Cell.int 0) ∧
    (post.reposts = none → vk_post_info fa lk post "Репосты" = Cell.int 0) ∧
    (post.comments = none →
      vk_post_info fa lk post "Комментарии" = Cell.int 0) ∧
    (post.views = none → vk_post_info fa lk post "Просмотры" = Cell.int 0) ∧
    (∀ n, post.likes = some ⟨some n⟩ →
      vk_post_info fa lk post "Лайки" = Cell.int n) ∧
    (∀ n, post.reposts = some ⟨some n⟩ →
      vk_post_info fa lk post "Репосты" = Cell.int n) ∧
    (∀ n, post.comments = some ⟨some n⟩ →
      vk_post_info fa lk post "Комментарии" = Cell.int n) ∧
    (∀ n, post.views = some ⟨some n⟩ →
      vk_post_info fa lk post "Просмотры" = Cell.int n) := by
  refine ⟨?_, ?_, ?_, ?_, ?_, ?_, ?_, ?_, ?_, ?_, ?_, ?_, ?_, ?_⟩
  · intro h; rw [tg_message_info_reactions, h]
  · rw [tg_message_info_reactions]
    cases m.reactions <;> simp
  · intro h; rw [tg_message_info_replies, h]
  · rw [tg_message_info_replies]
    cases m.replies <;> simp
  · exact tg_message_info_views ru cl m
  · exact tg_message_info_forwards ru cl m
  · intro h; rw [vk_post_info_likes, h]; rfl
  · intro h; rw [vk_post_info_reposts, h]; rfl
  · intro h; rw [vk_post_info_comments, h]; rfl
  · intro h; rw [vk_post_info_views, h]; rfl
  · intro n h; rw [vk_post_info_likes, h]; rfl
  · intro n h; rw [vk_post_info_reposts, h]; rfl
  · intro n h; rw [vk_post_info_comments, h]; rfl
  · intro n h; rw [vk_post_info_views, h]; rfl

theorem engagement_counter_defaults_instance :
    tg_message_info (fun _ => "") "t.me/c" demoTgMessage "Реакции" =
      Cell.int 0 ∧
    vk_post_info (fun _ => []) "vk.com/g" demoVkPost "Лайки" = Cell.int 3 := by
  obtain ⟨a1, _, _, _, _, _, _, _, _, _, a11, _, _, _⟩ :=
    engagement_counter_defaults (fun _ => "") "t.me/c" demoTgMessage
      (fun _ => []) "vk.com/g" demoVkPost
  exact ⟨a1 rfl, a11 3 rfl⟩

theorem get_records_by_batch_of_chain {α : Type}
    (server : Option String → NotionPage α) (pages : List (NotionPage α)) :
    ∀ (cursor : Option String) (fuel : Nat),
      ServesChain server cursor pages → pages.length ≤ fuel →
      get_records_by_batch server fuel cursor =
        some (pages.map (fun p => p.results)).flatten := by
  induction pages with
  | nil =>
    intro cursor fuel hchain _
    exact False.elim hchain
  | cons p rest ih =>
    intro cursor fuel hchain hlen
    cases rest with
    | nil =>
      obtain ⟨hs, hm⟩ := hchain
      cases fuel with
      | zero => simp at hlen
      | succ f =>
        simp only [get_records_by_batch, hs, hm]
        simp
    | cons q rest2 =>
      obtain ⟨hs, hm, hrest⟩ := hchain
      cases fuel with
      | zero => simp at hlen
      | succ f =>
        have hlen' : (q :: rest2).length ≤ f := by
          simpa using Nat.succ_le_succ_iff.mp hlen
        have hrec := ih p.next_cursor f hrest hlen'
        simp only [get_records_by_batch, hs, hm, hrec]
        simp

/-- C7: the cursor-pagination reader of `get_records_by_batch` yields the
items of every page in page order and terminates exactly when a response
reports `has_more = false`: along any cursor chain whose last response
clears `has_more`, it returns precisely the concatenation of all page
results (every fetched item exactly once, in order), and against a
source that always reports `has_more = true` it never terminates,
whatever the iteration bound. -/
theorem notion_pagination_complete :
    (∀ (α : Type) (server : Option String → NotionPage α)
        (pages : List (NotionPage α)) (cursor : Option String) (fuel : Nat),
        ServesChain server cursor pages → pages.length ≤ fuel →
        get_records_by_batch server fuel cursor =
          some (pages.map (fun p => p.results)).flatten) ∧
    (∀ (α : Type) (server : Option String → NotionPage α),
        (∀ c, (server c).has_more = true) →
        ∀ (fuel : Nat) (cursor : Option String),
          get_records_by_batch server fuel cursor = none) := by
  constructor
  · intro α server pages cursor fuel h1 h2
    exact get_records_by_batch_of_chain server pages cursor fuel h1 h2
  · intro α server hall fuel
    induction fuel with
    | zero => intro cursor; rfl
    | succ f ih =>
      intro cursor
      simp [get_records_by_batch, hall cursor, ih]

theorem notion_pagination_complete_instance :
    get_records_by_batch notionServerDemo 3 none = some (List.range 24) := by
  have h := notion_pagination_complete.1 Nat notionServerDemo
    [notionPage1, notionPage2, notionPage3] none 3
    ⟨rfl, rfl, rfl, rfl, rfl, rfl⟩ (by decide)
  rw [h]
  decide

/-- C8 counterexample: the placeholder the TG normalizer produces for a
forward from a non-channel source named `X` is the Russian
`"Репост от X"`, which differs from the claimed `"Repost from X"`. -/
theorem tg_repost_placeholder_not_english :
    tg_message_info (fun _ => "c") "t.me/ch" tgMsgForwardName
        "Ссылка на оригинальный пост" = Cell.str "Репост от X" ∧
    Cell.str "Репост от X" ≠ Cell.str "Repost from X" :=
  ⟨rfl, by decide⟩

/-- C8 amended: for a forward from a non-channel source with truthy
`from_name = nm`, the normalized original-post-link field is the
placeholder `"Репост от nm"` (the code's Russian wording of
"Repost from nm"); for a forward from a resolvable channel it is
`https://t.me/{username}/{forwarded post id}` — so username `"c"` with
post id 5 yields `"https://t.me/c/5"`. -/
theorem tg_repost_reference_text (ru : Nat → String) (cl : String)
    (m : TgMessage) (f : TgForward) (hm : m.forward = some f) :
    (f.is_channel = false → ∀ nm, f.from_name = some nm → nm ≠ "" →
      tg_message_info ru cl m "Ссылка на оригинальный пост" =
        Cell.str ("Репост от " ++ nm)) ∧
    (f.is_channel = true →
      tg_message_info ru cl m "Ссылка на оригинальный пост" =
        Cell.str ("https://t.me/" ++ ru f.channel_id ++ "/" ++
          toString f.channel_post)) := by
  constructor
  · intro hch nm hnm hne
    rw [tg_message_info_original_link, hm]
    simp [tg_original_channel_link, hch, hnm, truthyStr, hne]
  · intro hch
    rw [tg_message_info_original_link, hm]
    simp [tg_original_channel_link, hch]

theorem tg_repost_reference_text_instance :
    tg_message_info (fun _ => "c") "t.me/ch" tgMsgForwardName
        "Ссылка на оригинальный пост" = Cell.str ("Репост от " ++ "X") ∧
    tg_message_info (fun _ => "c") "t.me/ch" tgMsgForwardChannel
        "Ссылка на оригинальный пост" = Cell.str "https://t.me/c/5" := by
  constructor
  · exact (tg_repost_reference_text (fun _ => "c") "t.me/ch" tgMsgForwardName
      fwdNameX rfl).1 rfl "X" rfl (by decide)
  · have h := (tg_repost_reference_text (fun _ => "c") "t.me/ch"
      tgMsgForwardChannel fwdChannelC rfl).2 rfl
    rw [h]
    rfl

/-- C9: applying the markdown-aware TG link pattern to
`"see http://a.co and [link](https://b.co)"` and joining the matches
with `", "` yields exactly `"http://a.co, https://b.co"` — the URL
portion of the markdown link is extracted without the bracket syntax,
and matches are kept in first-seen order. -/
theorem tg_link_extraction_markdown :
    tg_links_in_post (some "see http://a.co and [link](https://b.co)") =
      some "http://a.co, https://b.co" := by
  rfl

end FtParsers
